import Mathlib

/-!
Shallow embedding of the MLOps core of the AI-Email-Assistant repository:
the model registry (`mlops/model_registry.py`), drift detection
(`scripts/check_drift.py`), the monitoring orchestrator
(`scripts/run_monitoring.py`) and the secondary monitor
(`mlops/model_monitor.py`).  Python floats are embedded as rationals, the
MLflow tracking store for one `model_name` as a stage/metrics map indexed by
version number, fallible store calls as explicit failure branches, and the
external statistics library (scipy) as function parameters.
-/

namespace EmailMLOps

/-! ## Model registry (`mlops/model_registry.py`) -/

/-- Tracking-store state for one registered `model_name`: versions `1..n`
have been created; `stageOf v` is version `v`'s current stage string and
`metricsOf v` the metric bag of the run the version points at (only
meaningful for `1 ≤ v ≤ n`). -/
structure RState where
  n : Nat
  stageOf : Nat → String
  metricsOf : Nat → List (String × ℚ)

/-- State before the model name has any version (MLflow store calls on an
unknown model raise, which the embedding reads off `n = 0`). -/
def initState : RState := ⟨0, fun _ => "None", fun _ => []⟩

/-- Translation of `ModelRegistry.register_model`: a run recording `ms` is
logged and a fresh version is created in stage `"None"`; the new version
number is returned together with the new store state. -/
def registerModel (st : RState) (ms : List (String × ℚ)) : Nat × RState :=
  (st.n + 1,
   ⟨st.n + 1,
    fun u => if u = st.n + 1 then "None" else st.stageOf u,
    fun u => if u = st.n + 1 then ms else st.metricsOf u⟩)

/-- Helper for `client.get_latest_versions(name, stages=[s])`: the highest
version among `1..k` currently in stage `s`, if any. -/
def latestAux (f : Nat → String) (s : String) : Nat → Option Nat
  | 0 => none
  | k + 1 => if f (k + 1) = s then some (k + 1) else latestAux f s k

/-- The latest registered version currently in stage `s`. -/
def latestInStage (st : RState) (s : String) : Option Nat :=
  latestAux st.stageOf s st.n

/-- Translation of `client.transition_model_version_stage` on an existing
version: only that version's stage changes. -/
def setStage (st : RState) (v : Nat) (s : String) : RState :=
  ⟨st.n, fun u => if u = v then s else st.stageOf u, st.metricsOf⟩

/-- The archive loop of `promote_model`: every version the store returns for
the target stage (its latest one) is transitioned to `"Archived"`. -/
def archiveExistingIn (st : RState) (s : String) : RState :=
  match latestInStage st s with
  | some w => setStage st w "Archived"
  | none => st

/-- Translation of `ModelRegistry.promote_model`: with `archiveExisting` the
latest version in the target stage is archived first, then the target
version's stage is set.  A store call on an unregistered model name
(`n = 0`) or a missing version raises inside the `try`, which the `except`
turns into a `false` return — but archive transitions already performed
before the failing call keep their effect. -/
def promoteModel (st : RState) (v : Nat) (s : String) (archiveExisting : Bool) :
    Bool × RState :=
  if st.n = 0 then (false, st)
  else
    let st1 := if archiveExisting then archiveExistingIn st s else st
    if 1 ≤ v ∧ v ≤ st1.n then (true, setStage st1 v s) else (false, st1)

/-- Translation of `ModelRegistry.get_model_info`: the latest version in the
requested stage joined with its run's metrics; an empty stage makes the
`[0]` index raise `IndexError`, caught and returned as `None`. -/
def getModelInfo (st : RState) (s : String) : Option (Nat × List (String × ℚ)) :=
  (latestInStage st s).map fun v => (v, st.metricsOf v)

/-- The promotion-criteria loop of `auto_promote_model`: walks the threshold
pairs in order; a metric missing from the run's metrics, or present but
below its threshold, fails the check immediately (the loop breaks). -/
def meetsCriteria (m : List (String × ℚ)) : List (String × ℚ) → Bool
  | [] => true
  | (k, t) :: rest =>
    match m.lookup k with
    | some x => if x < t then false else meetsCriteria m rest
    | none => false

/-- Translation of `ModelRegistry.auto_promote_model`: looks up the latest
stage-`"None"` version; if it meets every threshold it is promoted to
`"Staging"` via `promote_model` (default `archive_existing=True`), otherwise
nothing is mutated and `false` is returned. -/
def autoPromoteModel (st : RState) (thr : List (String × ℚ)) : Bool × RState :=
  match latestInStage st "None" with
  | none => (false, st)
  | some v =>
    if meetsCriteria (st.metricsOf v) thr then promoteModel st v "Staging" true
    else (false, st)

/-- The metric-difference loop of `compare_models`: for every metric of run 1
that also appears in run 2, record `metrics2[k] - metrics1[k]`. -/
def metricDifferences (m1 m2 : List (String × ℚ)) : List (String × ℚ) :=
  match m1 with
  | [] => []
  | (k, a) :: rest =>
    match m2.lookup k with
    | some b => (k, b - a) :: metricDifferences rest m2
    | none => metricDifferences rest m2

/-- Translation of `ModelRegistry.compare_models` restricted to its
`metric_differences` field: a missing version makes the store call raise,
caught and returned as `None`. -/
def compareModels (st : RState) (v1 v2 : Nat) : Option (List (String × ℚ)) :=
  if (1 ≤ v1 ∧ v1 ≤ st.n) ∧ (1 ≤ v2 ∧ v2 ≤ st.n) then
    some (metricDifferences (st.metricsOf v1) (st.metricsOf v2))
  else none

/-- One registry call of the sequences claim C1 quantifies over:
a `register_model` call or a `promote_model` call with
`archive_existing=True`. -/
inductive RegistryOp where
  | reg : List (String × ℚ) → RegistryOp
  | promo : Nat → String → RegistryOp

def applyOp (st : RState) : RegistryOp → RState
  | .reg ms => (registerModel st ms).2
  | .promo v s => (promoteModel st v s true).2

def runOps (st : RState) : List RegistryOp → RState
  | [] => st
  | o :: os => runOps (applyOp st o) os

/-- Stage exclusivity: no two distinct registered versions simultaneously
hold the same stage other than `"None"` and `"Archived"`. -/
def StageExclusive (st : RState) : Prop :=
  ∀ s v1 v2, s ≠ "None" → s ≠ "Archived" →
    1 ≤ v1 → v1 ≤ st.n → 1 ≤ v2 → v2 ≤ st.n →
    st.stageOf v1 = s → st.stageOf v2 = s → v1 = v2

/-! ## Drift detection (`scripts/check_drift.py`) -/

/-- One per-day prediction log for a model: the date parsed from the
filename suffix (a day number) and the `(true, predicted)` label pairs read
from its rows (§6 of the spec fixes the column contract for these files). -/
structure LogFile where
  date : Int
  rows : List (Nat × Nat)
deriving DecidableEq

def dfltLog : LogFile := ⟨0, []⟩

/-- `sklearn.metrics.accuracy_score` on label pairs: fraction of equal
pairs. -/
def accuracy (rows : List (Nat × Nat)) : ℚ :=
  ((rows.countP fun r => decide (r.1 = r.2) : ℕ) : ℚ) / (rows.length : ℚ)

/-- `np.mean` over a list of rationals. -/
def listMean (l : List ℚ) : ℚ := l.sum / (l.length : ℚ)

/-- The window test of `detect_model_drift`:
`start_date <= file_date <= end_date` with `start = now - window_days`. -/
def inWindow (now window : Int) (f : LogFile) : Bool :=
  decide (now - window ≤ f.date) && decide (f.date ≤ now)

/-- Insertion step of `sorted(prediction_files)`; for one model the sort key
is the fixed-width filename-embedded date. -/
def insertByDate (f : LogFile) : List LogFile → List LogFile
  | [] => [f]
  | g :: gs => if f.date ≤ g.date then f :: g :: gs else g :: insertByDate f gs

/-- `sorted(prediction_files)` as insertion sort on the embedded date. -/
def sortByDate : List LogFile → List LogFile
  | [] => []
  | f :: fs => insertByDate f (sortByDate fs)

/-- Boolean check that a file list is strictly ascending by date (one log
file per day, listed in date order — the canonical representation of the
predictions directory). -/
def strictByDate : List LogFile → Bool
  | [] => true
  | [_] => true
  | a :: b :: t => decide (a.date < b.date) && strictByDate (b :: t)

/-- The result dictionary of `DriftDetector.detect_model_drift`. -/
structure ModelDriftResult where
  baselineAccuracy : ℚ
  currentAccuracy : ℚ
  performanceDrop : ℚ
  driftDetected : Bool
deriving DecidableEq

/-- Default `performance_drift_threshold` set in `DriftDetector.__init__`. -/
def performanceDriftThreshold : ℚ := mkRat 1 10

/-- Translation of `DriftDetector.detect_model_drift`: filter the per-day
logs to the `[now - window, now]` window, require at least two, sort by
date, take per-day accuracies; baseline is the mean of all but the last
day, current the last day's accuracy; drift when the drop strictly exceeds
the threshold. -/
def detectModelDrift (files : List LogFile) (now window : Int) (thr : ℚ) :
    Option ModelDriftResult :=
  let q := files.filter (inWindow now window)
  if q.length < 2 then none
  else
    let daily := (sortByDate q).map fun f => accuracy f.rows
    if daily.length < 2 then none
    else
      let baseline := listMean daily.dropLast
      let current := daily.getLastD 0
      some ⟨baseline, current, baseline - current, decide (baseline - current > thr)⟩

/-- Qualifying logs of a drift check: those with a filename-embedded date in
the window. -/
def qualifyingLogs (files : List LogFile) (now window : Int) : List LogFile :=
  files.filter (inWindow now window)

/-- Baseline accuracy: mean per-day accuracy over all qualifying days except
the most recent. -/
def baselineOf (q : List LogFile) : ℚ :=
  listMean (q.dropLast.map fun f => accuracy f.rows)

/-- Current accuracy: the most recent qualifying day's accuracy. -/
def currentOf (q : List LogFile) : ℚ :=
  accuracy (q.getLastD dfltLog).rows

/-- A pandas column of either numeric or categorical dtype, with missing
values (`NaN`) as `none` entries. -/
inductive ColData where
  | num : List (Option ℚ) → ColData
  | cat : List (Option String) → ColData
deriving DecidableEq

/-- A dataframe restricted to what `detect_data_drift` reads: a partial map
from column name to that column's data. -/
abbrev Dataset : Type := String → Option ColData

/-- `Series.dropna` for a numeric column. -/
def dropnaQ (l : List (Option ℚ)) : List ℚ := l.filterMap id

/-- `Series.dropna` for a categorical column. -/
def dropnaS (l : List (Option String)) : List String := l.filterMap id

/-- The aligned category index: the union of the categories appearing on
either side (`set(ref) | set(cur)`), enumerated without duplicates. -/
def catsOf (r u : List String) : List String := (r ++ u).dedup

/-- One column's entry in the `drift_results` dictionary. -/
structure DriftEntry where
  test : String
  statistic : ℚ
  pValue : ℚ
  driftDetected : Bool
deriving DecidableEq

/-- Default `data_drift_threshold` set in `DriftDetector.__init__`. -/
def dataDriftThreshold : ℚ := mkRat 1 20

/-- True unless the two sides of a column carry different dtypes; a mixed
pair would make the numeric branch's KS call raise an uncaught `TypeError`
in the source, so the theorems below restrict to kind-consistent data. -/
def kindConsistentB : Option ColData → Option ColData → Bool
  | some (.num _), some (.cat _) => false
  | some (.cat _), some (.num _) => false
  | _, _ => true

/-- The per-column body of `detect_data_drift`.  `ks` stands for
`scipy.stats.ks_2samp` returning (statistic, p-value); `chi` stands for
`scipy.stats.chisquare` applied as `chisquare(cur_aligned, ref_aligned)`,
with `none` for the raising outcome that the source's bare `except` turns
into `continue` (no entry for the column). -/
def colEntry (ks : List ℚ → List ℚ → ℚ × ℚ)
    (chi : List Nat → List Nat → Option (ℚ × ℚ))
    (ref cur : Dataset) (thr : ℚ) (c : String) : Option DriftEntry :=
  match ref c, cur c with
  | some (.num rv), some (.num cv) =>
    let r := dropnaQ rv
    let u := dropnaQ cv
    if r.isEmpty || u.isEmpty then none
    else
      let sp := ks r u
      some ⟨"Kolmogorov-Smirnov", sp.1, sp.2, decide (sp.2 < thr)⟩
  | some (.cat rv), some (.cat cv) =>
    let r := dropnaS rv
    let u := dropnaS cv
    if r.isEmpty || u.isEmpty then none
    else
      let cats := catsOf r u
      (chi (cats.map fun x => u.count x) (cats.map fun x => r.count x)).map
        fun sp => ⟨"Chi-square", sp.1, sp.2, decide (sp.2 < thr)⟩
  | _, _ => none

/-- Translation of `DriftDetector.detect_data_drift`: one dictionary entry
per listed column that survives the presence, non-empty and test checks,
in column-list order. -/
def detectDataDrift (ks : List ℚ → List ℚ → ℚ × ℚ)
    (chi : List Nat → List Nat → Option (ℚ × ℚ))
    (ref cur : Dataset) (cols : List String) (thr : ℚ) :
    List (String × DriftEntry) :=
  cols.filterMap fun c => (colEntry ks chi ref cur thr c).map fun e => (c, e)

/-- Model of `scipy.stats.chisquare`'s documented input contract: the call
raises `ValueError` (here `none`) when the observed and expected tables have
different totals; the p-value computation itself is irrelevant to the
claims and is abstracted to a fixed pair. -/
def chisquareModelled (obs expd : List Nat) : Option (ℚ × ℚ) :=
  if obs.sum = expd.sum then some (0, 1) else none

/-! ## Monitoring orchestrator (`scripts/run_monitoring.py`) -/

/-- The two managed model names hard-coded in `MLOpsMonitor`. -/
def managedModels : List String := ["intent_classifier", "reply_generator"]

/-- Outcome of the serving-endpoint probe: an HTTP response with a status
code, or a raised exception. -/
inductive ProbeResult where
  | resp : Nat → ProbeResult
  | exc : String → ProbeResult
deriving DecidableEq

/-- The `health_status` dictionary of `MLOpsMonitor.health_check`. -/
structure HealthStatus where
  overall : String
  apiStatus : String
  mlflowStatus : String
  models : List (String × String)
deriving DecidableEq

/-- Translation of `MLOpsMonitor.health_check`: `status` starts `healthy`;
the API probe sets the api sub-check from the status code but flips the
overall status only in its `except` branch; the tracking check flips the
overall status on failure; the model loop then unconditionally sets the
overall status to `degraded` for every model without a Production
version. -/
def healthCheck (api : ProbeResult) (mlflowOk : Bool) (avail : String → Bool) :
    HealthStatus :=
  let apiS := match api with
    | .resp code => if code = 200 then "healthy" else "unhealthy"
    | .exc _ => "unhealthy"
  let s1 := match api with
    | .resp _ => "healthy"
    | .exc _ => "unhealthy"
  let mlfS := if mlflowOk then "healthy" else "unhealthy"
  let s2 := if mlflowOk then s1 else "unhealthy"
  let modelEntries := managedModels.map fun m =>
    (m, if avail m then "available" else "unavailable")
  let s3 := if managedModels.any (fun m => !(avail m)) then "degraded" else s2
  ⟨s3, apiS, mlfS, modelEntries⟩

/-- The `drift_report` of `MLOpsMonitor.drift_monitoring`, plus the alerts
sent while building it. -/
structure DriftMonReport where
  driftDetected : Bool
  models : List (String × String)
  alerts : List (String × String)
deriving DecidableEq

/-- Translation of `MLOpsMonitor.drift_monitoring`: per managed model the
drift script is run as a subprocess; return code `0` records `no_drift`,
anything else records `drift_detected`, raises the report-level flag and
sends an alert. -/
def driftMonitoring (rc : String → Nat) : DriftMonReport :=
  { driftDetected := managedModels.any fun m => decide (rc m ≠ 0)
    models := managedModels.map fun m =>
      (m, if rc m = 0 then "no_drift" else "drift_detected")
    alerts := (managedModels.filter fun m => decide (rc m ≠ 0)).map fun m =>
      ("Drift Alert: " ++ m,
       "Drift detected for model " ++ m ++ ". Check logs for details.") }

/-- Observable outcome of one completed run of `scripts/check_drift.py`'s
`main`: the function falls off its end whatever `detect_model_drift`
returned, so the process exit code is `0`; paired with the drift verdict it
computed on the way. -/
def checkDriftScript (files : List LogFile) (now window : Int) (thr : ℚ) :
    Nat × Option ModelDriftResult :=
  (0, detectModelDrift files now window thr)

/-- Wall-clock instant at which a report is generated. -/
structure Timestamp where
  year : Nat
  month : Nat
  day : Nat
  hour : Nat
  minute : Nat
  second : Nat
deriving DecidableEq

/-- The fields that survive `strftime("%Y%m%d_%H%M")`: everything down to
the minute, seconds dropped. -/
def minuteKey (t : Timestamp) : Nat × Nat × Nat × Nat × Nat :=
  (t.year, t.month, t.day, t.hour, t.minute)

/-- A report artifact path: the report kind together with the
minute-resolution timestamp suffix (the zero-padded `strftime` rendering is
injective on these fields, so the path is modelled by them directly). -/
structure ReportPath where
  kind : String
  stamp : Nat × Nat × Nat × Nat × Nat
deriving DecidableEq

/-- Path of the artifact written by `generate_monitoring_report`:
`mlops/reports/monitoring_report_{%Y%m%d_%H%M}.json`. -/
def monitoringReportPath (t : Timestamp) : ReportPath :=
  ⟨"monitoring_report", minuteKey t⟩

/-- The `open(report_path, 'w')` write: a plain overwrite of whatever the
path held. -/
def saveMonitoringReport (fs : ReportPath → Option String) (t : Timestamp)
    (content : String) : ReportPath → Option String :=
  fun q => if q = monitoringReportPath t then some content else fs q

def emptyFS : ReportPath → Option String := fun _ => none

/-! ## Secondary monitor (`mlops/model_monitor.py`) -/

/-- The names bound at module level by `mlops/model_monitor.py`'s import
statements (lines 1-6): `mlflow`, `logging`, `datetime`, `pd`,
`classification_report`, `accuracy_score`, `np`.  `glob` is not among
them. -/
def modelMonitorBoundNames : List String :=
  ["mlflow", "logging", "datetime", "pd", "classification_report",
   "accuracy_score", "np"]

/-- Outcome of running a Python function body: a value, or an unhandled
`NameError` on an unbound global. -/
inductive PyOutcome (α : Type) where
  | ok : α → PyOutcome α
  | nameErr : String → PyOutcome α
deriving DecidableEq

/-- Translation of `ModelMonitor.detect_drift`: the first statement
evaluates `glob.glob(...)`, so the global `glob` is looked up in the
module environment before anything else; if bound, the last `window_size`
files (Python `[-k:]` slicing, whole list for `k = 0`) are checked exactly
as the source does. -/
def monitorDetectDrift (env : List String) (files : List (List (Nat × Nat)))
    (windowSize : Nat) : PyOutcome Bool :=
  if "glob" ∈ env then
    let sel := if windowSize = 0 then files else files.drop (files.length - windowSize)
    if sel.length < 2 then .ok false
    else
      let accs := sel.map accuracy
      let baseline := listMean accs.dropLast
      let current := accs.getLastD 0
      .ok (decide (current < baseline - (1 / 10)))
  else .nameErr "glob"

/-! ## Concrete fixtures used by witnesses and counterexamples -/

def availAllF : String → Bool := fun _ => true

def availNoneF : String → Bool := fun _ => false

/-- One registered version with metrics `{accuracy: 0.90}`. -/
def stW : RState := (registerModel initState [("accuracy", mkRat 9 10)]).2

/-- Thresholds `{accuracy: 0.85, f1: 0.80}`. -/
def thrW : List (String × ℚ) := [("accuracy", mkRat 17 20), ("f1", mkRat 4 5)]

/-- Version 1 with metrics `{accuracy: 0.8}`, version 2 with
`{accuracy: 0.85, f1: 0.7}`. -/
def stC8 : RState :=
  (registerModel (registerModel initState [("accuracy", mkRat 4 5)]).2
    [("accuracy", mkRat 17 20), ("f1", mkRat 7 10)]).2

/-- `stW` after promoting version 1 to Production. -/
def stProd : RState := (promoteModel stW 1 "Production" true).2

/-- Two qualifying days: day 8 with accuracy 9/10, day 9 with accuracy
81/100. -/
def filesW : List LogFile :=
  [⟨8, List.replicate 9 (0, 0) ++ [(0, 1)]⟩,
   ⟨9, List.replicate 81 (0, 0) ++ List.replicate 19 (0, 1)⟩]

/-- Two qualifying days whose accuracies drop from 1 to 0. -/
def demoDriftFiles : List LogFile := [⟨8, [(0, 0)]⟩, ⟨9, [(0, 1)]⟩]

/-- A concrete stand-in for `ks_2samp` used in witnesses. -/
def ksW : List ℚ → List ℚ → ℚ × ℚ := fun _ _ => (1, mkRat 1 100)

def refW : Dataset := fun c =>
  if c = "email_length" then some (.num [some 1, some 1]) else none

def curW : Dataset := fun c =>
  if c = "email_length" then some (.num [some 5]) else none

/-- Reference side of the C4 counterexample: one non-missing categorical
value. -/
def refCt : Dataset := fun c =>
  if c = "color" then some (.cat [some "a"]) else none

/-- Current side of the C4 counterexample: two non-missing categorical
values, so the chi-square tables total 2 versus 1. -/
def curCt : Dataset := fun c =>
  if c = "color" then some (.cat [some "a", some "a"]) else none

def tA : Timestamp := ⟨2026, 1, 2, 3, 4, 5⟩

def tB : Timestamp := ⟨2026, 1, 2, 3, 5, 5⟩

/-- Same calendar minute as `tA`, different second. -/
def tSame2 : Timestamp := ⟨2026, 1, 2, 3, 4, 50⟩

/-! ## Registry lemmas -/

theorem latestAux_eq_none {f : Nat → String} {s : String} :
    ∀ {k}, latestAux f s k = none → ∀ v, 1 ≤ v → v ≤ k → f v ≠ s := by
  intro k
  induction k with
  | zero => intro _ v h1 h2 _; omega
  | succ k ih =>
    intro h v h1 h2
    unfold latestAux at h
    by_cases hf : f (k + 1) = s
    · simp [hf] at h
    · simp only [hf, if_false] at h
      rcases Nat.lt_or_ge v (k + 1) with hv | hv
      · exact ih h v h1 (by omega)
      · have hv' : v = k + 1 := by omega
        rw [hv']
        exact hf

theorem latestAux_eq_some {f : Nat → String} {s : String} :
    ∀ {k w}, latestAux f s k = some w → 1 ≤ w ∧ w ≤ k ∧ f w = s := by
  intro k
  induction k with
  | zero => intro w h; simp [latestAux] at h
  | succ k ih =>
    intro w h
    unfold latestAux at h
    by_cases hf : f (k + 1) = s
    · rw [if_pos hf] at h
      injection h with h
      refine ⟨by omega, by omega, ?_⟩
      rw [← h]
      exact hf
    · rw [if_neg hf] at h
      obtain ⟨h1, h2, h3⟩ := ih h
      exact ⟨h1, by omega, h3⟩

theorem setStage_n (st : RState) (v : Nat) (s : String) :
    (setStage st v s).n = st.n := rfl

theorem archive_n (st : RState) (s : String) :
    (archiveExistingIn st s).n = st.n := by
  unfold archiveExistingIn
  cases latestInStage st s <;> rfl

theorem excl_setStage_archived {st : RState} (hex : StageExclusive st) (w : Nat) :
    StageExclusive (setStage st w "Archived") := by
  intro s v1 v2 hn ha h11 h12 h21 h22 hv1 hv2
  simp only [setStage] at hv1 hv2
  by_cases e1 : v1 = w
  · rw [if_pos e1] at hv1
    exact absurd hv1.symm ha
  · rw [if_neg e1] at hv1
    by_cases e2 : v2 = w
    · rw [if_pos e2] at hv2
      exact absurd hv2.symm ha
    · rw [if_neg e2] at hv2
      exact hex s v1 v2 hn ha h11 h12 h21 h22 hv1 hv2

theorem excl_archive {st : RState} (hex : StageExclusive st) (s0 : String) :
    StageExclusive (archiveExistingIn st s0) := by
  unfold archiveExistingIn
  cases latestInStage st s0 with
  | none => exact hex
  | some w => exact excl_setStage_archived hex w

theorem archive_clears {st : RState} {s : String} (hex : StageExclusive st)
    (hn : s ≠ "None") (ha : s ≠ "Archived") :
    ∀ v, 1 ≤ v → v ≤ st.n → (archiveExistingIn st s).stageOf v ≠ s := by
  intro v h1 h2
  unfold archiveExistingIn
  cases hl : latestInStage st s with
  | none => exact latestAux_eq_none hl v h1 h2
  | some w =>
    obtain ⟨hw1, hw2, hw3⟩ := latestAux_eq_some hl
    simp only [setStage]
    by_cases e : v = w
    · rw [if_pos e]
      exact fun h => ha h.symm
    · rw [if_neg e]
      intro hv
      exact e (hex s v w hn ha h1 h2 hw1 hw2 hv hw3)

theorem excl_promote {st : RState} (hex : StageExclusive st) (v : Nat) (s0 : String) :
    StageExclusive (promoteModel st v s0 true).2 := by
  unfold promoteModel
  by_cases h0 : st.n = 0
  · rw [if_pos h0]
    exact hex
  · rw [if_neg h0]
    simp only [if_true]
    have hax := excl_archive hex s0
    have han := archive_n st s0
    by_cases hv : 1 ≤ v ∧ v ≤ (archiveExistingIn st s0).n
    · rw [if_pos hv]
      intro s w1 w2 hsn hsa h11 h12 h21 h22 hw1 hw2
      simp only [setStage] at hw1 hw2 h12 h22
      by_cases e1 : w1 = v
      · by_cases e2 : w2 = v
        · rw [e1, e2]
        · rw [if_pos e1] at hw1
          rw [if_neg e2] at hw2
          subst hw1
          have hcl := archive_clears hex hsn hsa w2 h21 (by rw [← han]; exact h22)
          exact absurd hw2 hcl
      · rw [if_neg e1] at hw1
        by_cases e2 : w2 = v
        · rw [if_pos e2] at hw2
          subst hw2
          have hcl := archive_clears hex hsn hsa w1 h11 (by rw [← han]; exact h12)
          exact absurd hw1 hcl
        · rw [if_neg e2] at hw2
          exact hax s w1 w2 hsn hsa h11 h12 h21 h22 hw1 hw2
    · rw [if_neg hv]
      exact hax

theorem excl_register {st : RState} (hex : StageExclusive st)
    (ms : List (String × ℚ)) : StageExclusive (registerModel st ms).2 := by
  intro s v1 v2 hsn hsa h11 h12 h21 h22 hv1 hv2
  simp only [registerModel] at hv1 hv2 h12 h22
  by_cases e1 : v1 = st.n + 1
  · rw [if_pos e1] at hv1
    exact absurd hv1.symm hsn
  · rw [if_neg e1] at hv1
    by_cases e2 : v2 = st.n + 1
    · rw [if_pos e2] at hv2
      exact absurd hv2.symm hsn
    · rw [if_neg e2] at hv2
      exact hex s v1 v2 hsn hsa h11 (by omega) h21 (by omega) hv1 hv2

theorem excl_runOps : ∀ (ops : List RegistryOp) (st : RState),
    StageExclusive st → StageExclusive (runOps st ops) := by
  intro ops
  induction ops with
  | nil => intro st h; exact h
  | cons o os ih =>
    intro st h
    refine ih _ ?_
    cases o with
    | reg ms => exact excl_register h ms
    | promo v s => exact excl_promote h v s

/-- C1: for every sequence of `register_model` calls and `promote_model`
calls with `archive_existing=true` on one model name, starting from the
empty registry, the resulting state never has two distinct versions in the
same stage when that stage is neither `"None"` nor `"Archived"` (every
prefix of a sequence is itself such a sequence, so this covers every
intermediate state). -/
theorem stage_exclusivity_registry (ops : List RegistryOp) :
    StageExclusive (runOps initState ops) := by
  refine excl_runOps ops initState ?_
  intro s v1 v2 _ _ h11 h12 _ _ _ _
  simp only [initState] at h12
  omega

/-! ## Auto-promotion (C2) -/

theorem meetsCriteria_iff (m : List (String × ℚ)) :
    ∀ thr, meetsCriteria m thr = true ↔
      ∀ p ∈ thr, ∃ x, m.lookup p.1 = some x ∧ p.2 ≤ x := by
  intro thr
  induction thr with
  | nil => simp [meetsCriteria]
  | cons p rest ih =>
    obtain ⟨k, t⟩ := p
    cases hl : m.lookup k with
    | none =>
      simp only [meetsCriteria, hl]
      constructor
      · intro h
        cases h
      · intro h
        obtain ⟨x, hx, _⟩ := h (k, t) (List.mem_cons_self _ _)
        rw [hl] at hx
        cases hx
    | some x =>
      simp only [meetsCriteria, hl]
      by_cases hx : x < t
      · rw [if_pos hx]
        constructor
        · intro h
          cases h
        · intro h
          obtain ⟨y, hy, hty⟩ := h (k, t) (List.mem_cons_self _ _)
          rw [hl] at hy
          injection hy with hy
          rw [← hy] at hty
          exact absurd hx (not_lt.mpr hty)
      · rw [if_neg hx]
        rw [ih]
        constructor
        · intro h p' hp'
          rcases List.mem_cons.mp hp' with rfl | hp'
          · exact ⟨x, hl, le_of_not_lt hx⟩
          · exact h p' hp'
        · intro h p' hp'
          exact h p' (List.mem_cons_of_mem _ hp')

/-- C2: `auto_promote_model` is all-or-nothing and mutation-free on failure.
With `v` the newest stage-`"None"` version: the call returns `true` exactly
when every listed `(metric, threshold)` pair finds the metric in `v`'s run
with a value at least the threshold (a missing metric counts as failure —
the loop breaks on the first missing or failing metric); on `false` the
store state is returned unchanged, and on `true` the version has been
promoted to `"Staging"`. -/
theorem auto_promote_all_or_nothing (st : RState) (thr : List (String × ℚ))
    (v : Nat) (hv : latestInStage st "None" = some v) :
    ((autoPromoteModel st thr).1 = true ↔
      ∀ p ∈ thr, ∃ x, (st.metricsOf v).lookup p.1 = some x ∧ p.2 ≤ x)
    ∧ ((autoPromoteModel st thr).1 = false → autoPromoteModel st thr = (false, st))
    ∧ ((autoPromoteModel st thr).1 = true →
        (autoPromoteModel st thr).2.stageOf v = "Staging") := by
  obtain ⟨hv1, hvn, _⟩ := latestAux_eq_some hv
  have hn0 : ¬st.n = 0 := by omega
  have harch : (archiveExistingIn st "Staging").n = st.n := archive_n st "Staging"
  have hc : 1 ≤ v ∧ v ≤ (archiveExistingIn st "Staging").n := by
    constructor
    · exact hv1
    · rw [harch]; exact hvn
  have hpro : promoteModel st v "Staging" true =
      (true, setStage (archiveExistingIn st "Staging") v "Staging") := by
    unfold promoteModel
    rw [if_neg hn0]
    simp only [if_true]
    rw [if_pos hc]
  unfold autoPromoteModel
  rw [hv]
  by_cases hm : meetsCriteria (st.metricsOf v) thr = true
  · simp only [hm, if_true]
    rw [hpro]
    refine ⟨?_, ?_, ?_⟩
    · simp only [true_iff]
      exact (meetsCriteria_iff (st.metricsOf v) thr).mp hm
    · intro h
      cases h
    · intro _
      simp [setStage]
  · simp only [Bool.not_eq_true] at hm
    simp only [hm, if_false]
    refine ⟨?_, ?_, ?_⟩
    · constructor
      · intro h
        cases h
      · intro h
        have hmt := (meetsCriteria_iff (st.metricsOf v) thr).mpr h
        rw [hm] at hmt
        cases hmt
    · intro _
      rfl
    · intro h
      cases h

/-- Witness for C2 at the spec's concrete scenario: one candidate version
with metrics `{accuracy: 0.90}`, thresholds `{accuracy: 0.85, f1: 0.80}`
(missing `f1`): the call returns `false` and mutates nothing. -/
theorem auto_promote_witness :
    latestInStage stW "None" = some 1 ∧
    autoPromoteModel stW thrW = (false, stW) := by
  refine ⟨by decide, ?_⟩
  have h := auto_promote_all_or_nothing stW thrW 1 (by decide)
  exact h.2.1 (by decide)

/-! ## Model comparison (C8) -/

theorem lookup_cons_self {β : Type} (k : String) (x : β) (l : List (String × β)) :
    List.lookup k ((k, x) :: l) = some x := by
  simp [List.lookup]

theorem lookup_cons_ne {β : Type} {k k0 : String} (h : k ≠ k0) (x : β)
    (l : List (String × β)) :
    List.lookup k ((k0, x) :: l) = List.lookup k l := by
  have hb : (k == k0) = false := by simpa using h
  simp [List.lookup, hb]

theorem metricDifferences_lookup_none {m2 : List (String × ℚ)} {k : String} :
    ∀ {m1 : List (String × ℚ)}, k ∉ m1.map Prod.fst →
      (metricDifferences m1 m2).lookup k = none := by
  intro m1
  induction m1 with
  | nil => intro _; rfl
  | cons p rest ih =>
    obtain ⟨k0, a0⟩ := p
    intro h
    simp only [List.map_cons, List.mem_cons] at h
    push_neg at h
    obtain ⟨hk0, hrest⟩ := h
    simp only [metricDifferences]
    cases m2.lookup k0 with
    | some b =>
      rw [lookup_cons_ne hk0]
      exact ih hrest
    | none => exact ih hrest

theorem metricDifferences_lookup {m2 : List (String × ℚ)} :
    ∀ {m1 : List (String × ℚ)}, (m1.map Prod.fst).Nodup →
      ∀ (k : String) (d : ℚ),
        ((metricDifferences m1 m2).lookup k = some d ↔
          ∃ a b, m1.lookup k = some a ∧ m2.lookup k = some b ∧ d = b - a) := by
  intro m1
  induction m1 with
  | nil =>
    intro _ k d
    simp [metricDifferences, List.lookup]
  | cons p rest ih =>
    obtain ⟨k0, a0⟩ := p
    intro hnd k d
    simp only [List.map_cons, List.nodup_cons] at hnd
    obtain ⟨hk0, hnd'⟩ := hnd
    by_cases e : k = k0
    · subst e
      simp only [metricDifferences]
      cases hl : m2.lookup k with
      | some b0 =>
        rw [lookup_cons_self]
        constructor
        · intro h
          injection h with h
          exact ⟨a0, b0, lookup_cons_self k a0 rest, rfl, h.symm⟩
        · rintro ⟨a, b, ha, hb, hd⟩
          rw [lookup_cons_self] at ha
          injection ha with ha
          injection hb with hb
          rw [hd, ← ha, ← hb]
      | none =>
        rw [metricDifferences_lookup_none hk0, lookup_cons_self]
        constructor
        · intro h
          cases h
        · rintro ⟨a, b, _, hb, _⟩
          cases hb
    · simp only [metricDifferences]
      cases m2.lookup k0 with
      | some b0 =>
        rw [lookup_cons_ne e, lookup_cons_ne e]
        exact ih hnd' k d
      | none =>
        rw [lookup_cons_ne e]
        exact ih hnd' k d

/-- C8: `compare_models` on two existing versions returns the metric-wise
delta map containing exactly the metrics present in both runs, each mapped
to `metrics2[k] - metrics1[k]`; a metric present in only one run produces
no entry. -/
theorem compare_models_metric_aware (st : RState) (v1 v2 : Nat)
    (h1 : 1 ≤ v1 ∧ v1 ≤ st.n) (h2 : 1 ≤ v2 ∧ v2 ≤ st.n)
    (hnd : ((st.metricsOf v1).map Prod.fst).Nodup) :
    compareModels st v1 v2 =
      some (metricDifferences (st.metricsOf v1) (st.metricsOf v2))
    ∧ ∀ (k : String) (d : ℚ),
        ((metricDifferences (st.metricsOf v1) (st.metricsOf v2)).lookup k = some d ↔
          ∃ a b, (st.metricsOf v1).lookup k = some a ∧
            (st.metricsOf v2).lookup k = some b ∧ d = b - a) := by
  constructor
  · unfold compareModels
    rw [if_pos ⟨h1, h2⟩]
  · exact metricDifferences_lookup hnd

/-- Witness for C8 at the spec's concrete example: version 1 has metrics
`{accuracy: 0.8}`, version 2 has `{accuracy: 0.85, f1: 0.7}`; the delta map
is exactly `{accuracy: 0.05}`. -/
theorem compare_models_witness :
    ((1 ≤ 1 ∧ 1 ≤ stC8.n) ∧ (1 ≤ 2 ∧ 2 ≤ stC8.n) ∧
      ((stC8.metricsOf 1).map Prod.fst).Nodup) ∧
    compareModels stC8 1 2 = some [("accuracy", mkRat 1 20)] := by
  refine ⟨⟨by decide, by decide, by decide⟩, ?_⟩
  have h := compare_models_metric_aware stC8 1 2 (by decide) (by decide) (by decide)
  refine h.1.trans ?_
  have hm1 : stC8.metricsOf 1 = [("accuracy", mkRat 4 5)] := by decide
  have hm2 : stC8.metricsOf 2 = [("accuracy", mkRat 17 20), ("f1", mkRat 7 10)] := by decide
  rw [hm1, hm2]
  simp [metricDifferences, List.lookup]
  rw [Rat.mkRat_eq_div, Rat.mkRat_eq_div, Rat.mkRat_eq_div]
  norm_num

/-! ## Not-found handling (C9) -/

/-- C9 (amended): not-found conditions never escape the Registry as
exceptions — `promote_model` returns `false` for a missing model or missing
version and `get_model_info` returns `none` exactly when no registered
version occupies the stage — but a failed `promote_model` call on a missing
version is not mutation-free: the archive step has already run when the
failing transition is reached, so the state returned is the archived one
(`get_model_info`, a pure lookup, leaves the state unchanged). -/
theorem notfound_returns_false_amended (st : RState) (v : Nat) (s : String) :
    (st.n = 0 → promoteModel st v s true = (false, st))
    ∧ (st.n ≠ 0 → ¬(1 ≤ v ∧ v ≤ st.n) →
        promoteModel st v s true = (false, archiveExistingIn st s))
    ∧ (getModelInfo st s = none ↔ ∀ u, 1 ≤ u → u ≤ st.n → st.stageOf u ≠ s) := by
  refine ⟨?_, ?_, ?_⟩
  · intro h
    unfold promoteModel
    rw [if_pos h]
  · intro h0 hv
    unfold promoteModel
    rw [if_neg h0]
    simp only [if_true]
    have hv' : ¬(1 ≤ v ∧ v ≤ (archiveExistingIn st s).n) := by
      rw [archive_n]
      exact hv
    rw [if_neg hv']
  · unfold getModelInfo
    constructor
    · intro h
      rw [Option.map_eq_none'] at h
      exact latestAux_eq_none h
    · intro h
      rw [Option.map_eq_none']
      cases hl : latestInStage st s with
      | none => rfl
      | some w =>
        obtain ⟨hw1, hw2, hw3⟩ := latestAux_eq_some hl
        exact absurd hw3 (h w hw1 hw2)

/-- Witness for C9 (amended) at a concrete store: version 2 was never
registered, so promotion of it fails with `false`, returning the
archive-mutated state. -/
theorem notfound_witness :
    (stProd.n ≠ 0 ∧ ¬(1 ≤ 2 ∧ 2 ≤ stProd.n)) ∧
    promoteModel stProd 2 "Production" true =
      (false, archiveExistingIn stProd "Production") := by
  refine ⟨⟨by decide, by decide⟩, ?_⟩
  exact (notfound_returns_false_amended stProd 2 "Production").2.1
    (by decide) (by decide)

/-- Counterexample to C9 as stated: with version 1 in Production, promoting
the non-existent version 2 to Production returns `false` — but the state is
not left unchanged: version 1 has been archived by the failed call. -/
theorem promote_mutates_counterexample :
    stProd.stageOf 1 = "Production"
    ∧ (promoteModel stProd 2 "Production" true).1 = false
    ∧ (promoteModel stProd 2 "Production" true).2.stageOf 1 = "Archived" := by
  refine ⟨by decide, by decide, by decide⟩

/-! ## Secondary monitor never returns a verdict (C10) -/

/-- C10: `ModelMonitor.detect_drift` references `glob.glob` while the module
never imports `glob`, so every call raises `NameError` before the
file-count check — the function can return neither its documented
`False`-on-insufficient-data result nor any drift verdict. -/
theorem model_monitor_detect_drift_name_error
    (files : List (List (Nat × Nat))) (windowSize : Nat) :
    monitorDetectDrift modelMonitorBoundNames files windowSize =
      .nameErr "glob" := by
  unfold monitorDetectDrift
  rw [if_neg (by decide)]

/-! ## Health-status aggregation (C5) -/

/-- C5 (amended): the overall health status is `degraded` whenever some
managed model lacks a Production version — the model loop runs last and
overwrites any earlier `unhealthy` — and only otherwise `unhealthy` when
the serving probe raised an exception or the tracking check failed; a
non-200 probe response marks the api sub-check `unhealthy` but leaves the
overall status untouched.  The api sub-check itself is `healthy` exactly
for a 200 response. -/
theorem health_check_aggregation_amended (api : ProbeResult) (mlflowOk : Bool)
    (avail : String → Bool) :
    ((healthCheck api mlflowOk avail).overall =
      if managedModels.any (fun m => !(avail m)) then "degraded"
      else match api with
        | .exc _ => "unhealthy"
        | .resp _ => if mlflowOk then "healthy" else "unhealthy")
    ∧ ((healthCheck api mlflowOk avail).apiStatus = "healthy" ↔
        ∃ code, api = .resp code ∧ code = 200) := by
  cases hav : managedModels.any (fun m => !(avail m)) with
  | true =>
    cases api with
    | resp code =>
      cases mlflowOk <;>
        by_cases hc : code = 200 <;>
          simp [healthCheck, hav, hc]
    | exc msg =>
      cases mlflowOk <;> simp [healthCheck, hav]
  | false =>
    cases api with
    | resp code =>
      cases mlflowOk <;>
        by_cases hc : code = 200 <;>
          simp [healthCheck, hav, hc]
    | exc msg =>
      cases mlflowOk <;> simp [healthCheck, hav]

/-- Counterexample to C5 as stated: a raising serving probe combined with
models lacking Production versions yields overall `degraded`, not
`unhealthy`; and a non-200 probe response with all models available yields
overall `healthy`, not `unhealthy`. -/
theorem health_check_counterexample :
    (healthCheck (.exc "connection refused") true availNoneF).overall = "degraded"
    ∧ (healthCheck (.resp 500) true availAllF).overall = "healthy"
    ∧ ("degraded" : String) ≠ "unhealthy"
    ∧ ("healthy" : String) ≠ "unhealthy" := by
  refine ⟨by decide, by decide, by decide, by decide⟩

/-! ## Report artifacts (C7) -/

/-- C7 (amended): report paths are derived from the generation timestamp at
minute resolution, so two generations produce distinct, non-overwriting
artifacts exactly when their timestamps differ in the minute-granular
fields; two generations within the same calendar minute share one path and
the second write replaces the first. -/
theorem report_path_minute_granularity (t1 t2 : Timestamp)
    (fs : ReportPath → Option String) (c1 c2 : String) :
    (monitoringReportPath t1 = monitoringReportPath t2 ↔ minuteKey t1 = minuteKey t2)
    ∧ (minuteKey t1 ≠ minuteKey t2 →
        saveMonitoringReport (saveMonitoringReport fs t1 c1) t2 c2
            (monitoringReportPath t1) = some c1
        ∧ saveMonitoringReport (saveMonitoringReport fs t1 c1) t2 c2
            (monitoringReportPath t2) = some c2)
    ∧ (minuteKey t1 = minuteKey t2 →
        saveMonitoringReport (saveMonitoringReport fs t1 c1) t2 c2
            (monitoringReportPath t1) = some c2) := by
  have hpath : monitoringReportPath t1 = monitoringReportPath t2 ↔
      minuteKey t1 = minuteKey t2 := by
    unfold monitoringReportPath
    constructor
    · intro h
      exact congrArg ReportPath.stamp h
    · intro h
      rw [h]
  refine ⟨hpath, ?_, ?_⟩
  · intro hne
    have hne' : monitoringReportPath t1 ≠ monitoringReportPath t2 := fun h =>
      hne (hpath.mp h)
    constructor
    · unfold saveMonitoringReport
      rw [if_neg hne', if_pos rfl]
    · unfold saveMonitoringReport
      rw [if_pos rfl]
  · intro he
    unfold saveMonitoringReport
    rw [if_pos (hpath.mpr he)]

/-- Witness for C7 (amended): two generations one minute apart produce two
distinct artifacts, neither overwritten. -/
theorem report_path_witness :
    minuteKey tA ≠ minuteKey tB ∧
    saveMonitoringReport (saveMonitoringReport emptyFS tA "report1") tB "report2"
      (monitoringReportPath tA) = some "report1" := by
  refine ⟨by decide, ?_⟩
  exact ((report_path_minute_granularity tA tB emptyFS "report1" "report2").2.1
    (by decide)).1

/-- Counterexample to C7 as stated: two distinct generation timestamps
within the same calendar minute produce the same artifact path, and the
second write replaces the first report's content. -/
theorem report_overwrite_counterexample :
    tA ≠ tSame2
    ∧ monitoringReportPath tA = monitoringReportPath tSame2
    ∧ saveMonitoringReport (saveMonitoringReport emptyFS tA "report1") tSame2
        "report2" (monitoringReportPath tA) = some "report2" := by
  refine ⟨by decide, by decide, by decide⟩

/-! ## Model drift (C3) -/

theorem strictByDate_pairwise : ∀ (l : List LogFile), strictByDate l = true →
    l.Pairwise (fun a b => a.date < b.date) := by
  intro l
  induction l with
  | nil => intro _; exact List.Pairwise.nil
  | cons a t ih =>
    intro h
    cases t with
    | nil => exact List.pairwise_singleton _ _
    | cons b t2 =>
      simp only [strictByDate, Bool.and_eq_true, decide_eq_true_eq] at h
      obtain ⟨hab, hrest⟩ := h
      have hp := ih hrest
      rw [List.pairwise_cons]
      refine ⟨?_, hp⟩
      intro g hg
      rcases List.mem_cons.mp hg with rfl | hg2
      · exact hab
      · have hbg := (List.pairwise_cons.mp hp).1 g hg2
        exact lt_trans hab hbg

theorem insertByDate_of_le {f : LogFile} :
    ∀ {l : List LogFile}, (∀ g ∈ l, f.date ≤ g.date) → insertByDate f l = f :: l := by
  intro l h
  cases l with
  | nil => rfl
  | cons g gs =>
    unfold insertByDate
    rw [if_pos (h g (List.mem_cons_self g gs))]

theorem sortByDate_eq_self : ∀ {l : List LogFile},
    l.Pairwise (fun a b => a.date ≤ b.date) → sortByDate l = l := by
  intro l
  induction l with
  | nil => intro _; rfl
  | cons f fs ih =>
    intro h
    rw [List.pairwise_cons] at h
    simp only [sortByDate]
    rw [ih h.2, insertByDate_of_le h.1]

theorem getLastD_map_ne_nil {α β : Type} (g : α → β) :
    ∀ (l : List α), l ≠ [] → ∀ (x : β) (d : α),
      (l.map g).getLastD x = g (l.getLastD d) := by
  intro l
  induction l with
  | nil => intro h; exact absurd rfl h
  | cons a t ih =>
    intro _ x d
    cases t with
    | nil => rfl
    | cons b t2 =>
      have hih := ih (by simp) x d
      simp only [List.map_cons, List.getLastD_cons] at hih ⊢
      exact hih

/-- C3: `detect_model_drift` returns `none` when fewer than two per-day logs
have a filename-embedded date inside `[now - window, now]`; otherwise it
returns a verdict whose baseline is the mean accuracy over all qualifying
days but the most recent, whose current value is the most recent day's
accuracy, and whose `drift_detected` holds exactly when
`baseline - current` strictly exceeds the threshold (so a drop of exactly
the threshold, or an improvement, is never flagged). -/
theorem detect_model_drift_spec (files : List LogFile) (now window : Int)
    (thr : ℚ) (hs : strictByDate files = true) :
    ((qualifyingLogs files now window).length < 2 →
      detectModelDrift files now window thr = none)
    ∧ (2 ≤ (qualifyingLogs files now window).length →
      detectModelDrift files now window thr =
        some ⟨baselineOf (qualifyingLogs files now window),
              currentOf (qualifyingLogs files now window),
              baselineOf (qualifyingLogs files now window) -
                currentOf (qualifyingLogs files now window),
              decide (baselineOf (qualifyingLogs files now window) -
                currentOf (qualifyingLogs files now window) > thr)⟩)
    ∧ (∀ r, detectModelDrift files now window thr = some r →
        (r.driftDetected = true ↔
          r.baselineAccuracy - r.currentAccuracy > thr)) := by
  have hpw : (files.filter (inWindow now window)).Pairwise
      (fun a b => a.date < b.date) :=
    (strictByDate_pairwise files hs).filter _
  have hsorted : sortByDate (files.filter (inWindow now window)) =
      files.filter (inWindow now window) :=
    sortByDate_eq_self (hpw.imp fun hab => le_of_lt hab)
  have hnone : (qualifyingLogs files now window).length < 2 →
      detectModelDrift files now window thr = none := by
    intro h
    unfold qualifyingLogs at h
    simp only [detectModelDrift]
    rw [if_pos h]
  have hsome : 2 ≤ (qualifyingLogs files now window).length →
      detectModelDrift files now window thr =
        some ⟨baselineOf (qualifyingLogs files now window),
              currentOf (qualifyingLogs files now window),
              baselineOf (qualifyingLogs files now window) -
                currentOf (qualifyingLogs files now window),
              decide (baselineOf (qualifyingLogs files now window) -
                currentOf (qualifyingLogs files now window) > thr)⟩ := by
    intro h2
    unfold qualifyingLogs at h2
    have hnl : ¬(files.filter (inWindow now window)).length < 2 := by omega
    have hne : files.filter (inWindow now window) ≠ [] := by
      intro hq
      rw [hq] at h2
      simp at h2
    unfold qualifyingLogs baselineOf currentOf
    simp only [detectModelDrift]
    rw [if_neg hnl, hsorted, List.length_map, if_neg hnl,
      getLastD_map_ne_nil _ _ hne 0 dfltLog, List.map_dropLast]
  refine ⟨hnone, hsome, ?_⟩
  intro r hr
  by_cases hlen : (qualifyingLogs files now window).length < 2
  · rw [hnone hlen] at hr
    cases hr
  · rw [hsome (by omega)] at hr
    injection hr with hr
    rw [← hr]
    simp

/-- Witness for C3 at the spec's threshold-edge scenario: qualifying days
with accuracies 0.90 then 0.81 give a drop of 0.09, not strictly above the
0.10 threshold, so no drift is flagged. -/
theorem detect_model_drift_witness :
    strictByDate filesW = true ∧
    detectModelDrift filesW 10 7 performanceDriftThreshold =
      some ⟨mkRat 9 10, mkRat 81 100, mkRat 9 100, false⟩ := by
  refine ⟨by decide, ?_⟩
  have h := (detect_model_drift_spec filesW 10 7 performanceDriftThreshold
    (by decide)).2.1 (by decide)
  rw [h]
  have hq : qualifyingLogs filesW 10 7 = filesW := by decide
  have hacc8 : accuracy (List.replicate 9 ((0 : ℕ), (0 : ℕ)) ++ [(0, 1)]) =
      mkRat 9 10 := by
    unfold accuracy
    have hc : ((List.replicate 9 ((0 : ℕ), (0 : ℕ)) ++ [(0, 1)]).countP
        fun r : ℕ × ℕ => decide (r.1 = r.2)) = 9 := by decide
    have hl : (List.replicate 9 ((0 : ℕ), (0 : ℕ)) ++ [(0, 1)]).length = 10 := by
      decide
    rw [hc, hl, Rat.mkRat_eq_div]
    norm_num
  have hacc9 : accuracy (List.replicate 81 ((0 : ℕ), (0 : ℕ)) ++
      List.replicate 19 (0, 1)) = mkRat 81 100 := by
    unfold accuracy
    have hc : ((List.replicate 81 ((0 : ℕ), (0 : ℕ)) ++
        List.replicate 19 (0, 1)).countP fun r : ℕ × ℕ => decide (r.1 = r.2)) = 81 := by
      decide
    have hl : (List.replicate 81 ((0 : ℕ), (0 : ℕ)) ++
        List.replicate 19 (0, 1)).length = 100 := by decide
    rw [hc, hl, Rat.mkRat_eq_div]
    norm_num
  have hb : baselineOf (qualifyingLogs filesW 10 7) = mkRat 9 10 := by
    rw [hq]
    unfold baselineOf filesW
    simp only [List.dropLast_cons₂, List.dropLast_single, List.map_cons,
      List.map_nil]
    unfold listMean
    simp only [List.sum_cons, List.sum_nil, List.length_cons, List.length_nil]
    rw [hacc8, Rat.mkRat_eq_div]
    norm_num
  have hcur : currentOf (qualifyingLogs filesW 10 7) = mkRat 81 100 := by
    rw [hq]
    unfold currentOf filesW
    simp only [List.getLastD_cons, List.getLastD_nil]
    exact hacc9
  have hsub : mkRat 9 10 - mkRat 81 100 = mkRat 9 100 := by
    rw [Rat.mkRat_eq_div, Rat.mkRat_eq_div, Rat.mkRat_eq_div]
    norm_num
  have hngt : ¬(mkRat 9 100 > performanceDriftThreshold) := by
    unfold performanceDriftThreshold
    rw [Rat.mkRat_eq_div, Rat.mkRat_eq_div]
    norm_num
  rw [hb, hcur, hsub, decide_eq_false hngt]

/-! ## Drift monitoring flag (C6) -/

/-- C6 evaluated at the failing input: with prediction logs whose per-day
accuracies drop from 1 to 0, `detect_model_drift` reports drift, but the
drift script still exits 0, so `drift_monitoring` records `no_drift` for
every model, leaves the report-level `drift_detected` flag `false`, and
sends no alert — it raises the flag only when the subprocess exits
non-zero, i.e. crashes. -/
theorem drift_flag_ignores_detection :
    (checkDriftScript demoDriftFiles 10 7 performanceDriftThreshold).1 = 0
    ∧ ((checkDriftScript demoDriftFiles 10 7 performanceDriftThreshold).2.map
        ModelDriftResult.driftDetected) = some true
    ∧ driftMonitoring
        (fun _ => (checkDriftScript demoDriftFiles 10 7 performanceDriftThreshold).1) =
      ⟨false, [("intent_classifier", "no_drift"), ("reply_generator", "no_drift")],
        []⟩ := by
  have hacc1 : accuracy [((0 : ℕ), (0 : ℕ))] = 1 := by
    have hc : ([((0 : ℕ), (0 : ℕ))].countP fun r : ℕ × ℕ => decide (r.1 = r.2)) = 1 := by
      decide
    unfold accuracy
    rw [hc]
    norm_num
  have hacc0 : accuracy [((0 : ℕ), (1 : ℕ))] = 0 := by
    have hc : ([((0 : ℕ), (1 : ℕ))].countP fun r : ℕ × ℕ => decide (r.1 = r.2)) = 0 := by
      decide
    unfold accuracy
    rw [hc]
    norm_num
  have hdet : detectModelDrift demoDriftFiles 10 7 performanceDriftThreshold =
      some ⟨1, 0, 1, true⟩ := by
    simp only [detectModelDrift]
    rw [(by decide : demoDriftFiles.filter (inWindow 10 7) = demoDriftFiles)]
    rw [if_neg (by decide : ¬demoDriftFiles.length < 2)]
    rw [(by decide : sortByDate demoDriftFiles = demoDriftFiles)]
    rw [show demoDriftFiles.map (fun f => accuracy f.rows) =
      [accuracy [((0 : ℕ), (0 : ℕ))], accuracy [((0 : ℕ), (1 : ℕ))]] from rfl]
    rw [hacc1, hacc0]
    rw [if_neg (by norm_num : ¬([(1 : ℚ), 0].length < 2))]
    rw [show ([(1 : ℚ), 0].dropLast) = [1] from rfl]
    rw [show ([(1 : ℚ), 0].getLastD 0) = 0 from rfl]
    have hm : listMean [(1 : ℚ)] = 1 := by
      unfold listMean
      simp
    rw [hm]
    have hgt : (1 : ℚ) - 0 > performanceDriftThreshold := by
      unfold performanceDriftThreshold
      rw [Rat.mkRat_eq_div]
      norm_num
    rw [decide_eq_true hgt]
    simp
  refine ⟨rfl, ?_, ?_⟩
  · show (detectModelDrift demoDriftFiles 10 7 performanceDriftThreshold).map
      ModelDriftResult.driftDetected = some true
    rw [hdet]
    rfl
  · decide

/-! ## Data drift (C4) -/

theorem detect_data_drift_mem (ks : List ℚ → List ℚ → ℚ × ℚ)
    (chi : List Nat → List Nat → Option (ℚ × ℚ))
    (ref cur : Dataset) (cols : List String) (thr : ℚ) :
    ∀ (c : String) (e : DriftEntry),
      ((c, e) ∈ detectDataDrift ks chi ref cur cols thr ↔
        (c ∈ cols ∧ colEntry ks chi ref cur thr c = some e)) := by
  intro c e
  unfold detectDataDrift
  rw [List.mem_filterMap]
  constructor
  · rintro ⟨c', hc', hmap⟩
    rw [Option.map_eq_some'] at hmap
    obtain ⟨a, ha, heq⟩ := hmap
    injection heq with h1 h2
    subst h1
    subst h2
    exact ⟨hc', ha⟩
  · rintro ⟨hc, he⟩
    exact ⟨c, hc, by rw [he]; rfl⟩

/-- C4 (amended): the result of `detect_data_drift` has an entry exactly
for the listed columns whose per-column computation produces one; a column
absent from either dataset or with no non-missing values on a side
produces no entry; a numeric column present and non-empty on both sides
always produces a KS entry; a categorical column present and non-empty on
both sides produces a chi-square entry exactly when the chi-square call
returns instead of raising (the source's bare `except` silently skips the
column when the test raises, e.g. when the two sides' total counts differ,
which the stats library rejects) — the test is run on the aligned tables
over the union of both sides' categories with missing categories counted
zero; and every produced entry is flagged exactly when its p-value is
strictly below the threshold. -/
theorem data_drift_policy_amended (ks : List ℚ → List ℚ → ℚ × ℚ)
    (chi : List Nat → List Nat → Option (ℚ × ℚ))
    (ref cur : Dataset) (cols : List String) (thr : ℚ)
    (hk : (cols.all fun c => kindConsistentB (ref c) (cur c)) = true) :
    (∀ (c : String) (e : DriftEntry),
      ((c, e) ∈ detectDataDrift ks chi ref cur cols thr ↔
        (c ∈ cols ∧ colEntry ks chi ref cur thr c = some e)))
    ∧ (∀ c, ref c = none → colEntry ks chi ref cur thr c = none)
    ∧ (∀ c, cur c = none → colEntry ks chi ref cur thr c = none)
    ∧ (∀ c rv cv, ref c = some (.num rv) → cur c = some (.num cv) →
        ((dropnaQ rv = [] ∨ dropnaQ cv = []) →
            colEntry ks chi ref cur thr c = none)
        ∧ (dropnaQ rv ≠ [] → dropnaQ cv ≠ [] →
            colEntry ks chi ref cur thr c =
              some ⟨"Kolmogorov-Smirnov", (ks (dropnaQ rv) (dropnaQ cv)).1,
                (ks (dropnaQ rv) (dropnaQ cv)).2,
                decide ((ks (dropnaQ rv) (dropnaQ cv)).2 < thr)⟩))
    ∧ (∀ c rv cv, ref c = some (.cat rv) → cur c = some (.cat cv) →
        ((dropnaS rv = [] ∨ dropnaS cv = []) →
            colEntry ks chi ref cur thr c = none)
        ∧ (dropnaS rv ≠ [] → dropnaS cv ≠ [] →
            colEntry ks chi ref cur thr c =
              (chi ((catsOf (dropnaS rv) (dropnaS cv)).map fun x =>
                  (dropnaS cv).count x)
                ((catsOf (dropnaS rv) (dropnaS cv)).map fun x =>
                  (dropnaS rv).count x)).map
                fun sp => ⟨"Chi-square", sp.1, sp.2, decide (sp.2 < thr)⟩))
    ∧ (∀ (c : String) (e : DriftEntry),
        (c, e) ∈ detectDataDrift ks chi ref cur cols thr →
          e.driftDetected = decide (e.pValue < thr))
    ∧ (∀ r u : List String,
        (catsOf r u).Nodup ∧ ∀ x, (x ∈ catsOf r u ↔ x ∈ r ∨ x ∈ u)) := by
  have hmem := detect_data_drift_mem ks chi ref cur cols thr
  have hnum : ∀ c rv cv, ref c = some (.num rv) → cur c = some (.num cv) →
      ((dropnaQ rv = [] ∨ dropnaQ cv = []) →
          colEntry ks chi ref cur thr c = none)
      ∧ (dropnaQ rv ≠ [] → dropnaQ cv ≠ [] →
          colEntry ks chi ref cur thr c =
            some ⟨"Kolmogorov-Smirnov", (ks (dropnaQ rv) (dropnaQ cv)).1,
              (ks (dropnaQ rv) (dropnaQ cv)).2,
              decide ((ks (dropnaQ rv) (dropnaQ cv)).2 < thr)⟩) := by
    intro c rv cv h1 h2
    unfold colEntry
    rw [h1, h2]
    constructor
    · intro hor
      have hcond : ((dropnaQ rv).isEmpty || (dropnaQ cv).isEmpty) = true := by
        rcases hor with h | h <;> simp [h]
      simp [hcond]
    · intro h3 h4
      have hcond : ((dropnaQ rv).isEmpty || (dropnaQ cv).isEmpty) = false := by
        simp [List.isEmpty_iff, h3, h4]
      simp [hcond]
  have hcat : ∀ c rv cv, ref c = some (.cat rv) → cur c = some (.cat cv) →
      ((dropnaS rv = [] ∨ dropnaS cv = []) →
          colEntry ks chi ref cur thr c = none)
      ∧ (dropnaS rv ≠ [] → dropnaS cv ≠ [] →
          colEntry ks chi ref cur thr c =
            (chi ((catsOf (dropnaS rv) (dropnaS cv)).map fun x =>
                (dropnaS cv).count x)
              ((catsOf (dropnaS rv) (dropnaS cv)).map fun x =>
                (dropnaS rv).count x)).map
              fun sp => ⟨"Chi-square", sp.1, sp.2, decide (sp.2 < thr)⟩) := by
    intro c rv cv h1 h2
    unfold colEntry
    rw [h1, h2]
    constructor
    · intro hor
      have hcond : ((dropnaS rv).isEmpty || (dropnaS cv).isEmpty) = true := by
        rcases hor with h | h <;> simp [h]
      simp [hcond]
    · intro h3 h4
      have hcond : ((dropnaS rv).isEmpty || (dropnaS cv).isEmpty) = false := by
        simp [List.isEmpty_iff, h3, h4]
      simp [hcond]
  refine ⟨hmem, ?_, ?_, hnum, hcat, ?_, ?_⟩
  · intro c h
    unfold colEntry
    rw [h]
  · intro c h
    unfold colEntry
    rw [h]
    cases href : ref c with
    | none => rfl
    | some cd => cases cd <;> rfl
  · intro c e hin
    obtain ⟨hc, he⟩ := (hmem c e).mp hin
    by_cases hrefp : ∃ cd, ref c = some cd
    · obtain ⟨cd, hrd⟩ := hrefp
      by_cases hcurp : ∃ cd', cur c = some cd'
      · obtain ⟨cd', hcd⟩ := hcurp
        cases cd with
        | num rv =>
          cases cd' with
          | num cv =>
            by_cases hemp : dropnaQ rv = [] ∨ dropnaQ cv = []
            · rw [(hnum c rv cv hrd hcd).1 hemp] at he
              cases he
            · push_neg at hemp
              rw [(hnum c rv cv hrd hcd).2 hemp.1 hemp.2] at he
              injection he with he
              rw [← he]
          | cat cv =>
            unfold colEntry at he
            rw [hrd, hcd] at he
            cases he
        | cat rv =>
          cases cd' with
          | num cv =>
            unfold colEntry at he
            rw [hrd, hcd] at he
            cases he
          | cat cv =>
            by_cases hemp : dropnaS rv = [] ∨ dropnaS cv = []
            · rw [(hcat c rv cv hrd hcd).1 hemp] at he
              cases he
            · push_neg at hemp
              rw [(hcat c rv cv hrd hcd).2 hemp.1 hemp.2] at he
              rw [Option.map_eq_some'] at he
              obtain ⟨sp, _, hsp⟩ := he
              rw [← hsp]
      · push_neg at hcurp
        have hcn : cur c = none := by
          cases hcc : cur c with
          | none => rfl
          | some x => exact absurd hcc (by simpa using hcurp x)
        unfold colEntry at he
        rw [hcn] at he
        cases hrc : ref c with
        | none =>
          rw [hrc] at he
          cases he
        | some cd2 =>
          rw [hrc] at he
          cases cd2 <;> cases he
    · push_neg at hrefp
      have hrn : ref c = none := by
        cases hcc : ref c with
        | none => rfl
        | some x => exact absurd hcc (by simpa using hrefp x)
      unfold colEntry at he
      rw [hrn] at he
      cases he
  · intro r u
    refine ⟨List.nodup_dedup _, ?_⟩
    intro x
    rw [catsOf, List.mem_dedup, List.mem_append]

/-- Witness for C4 (amended): a numeric column present and non-empty on
both sides gets a KS entry whose flag is set since the p-value 0.01 is
below the 0.05 threshold. -/
theorem data_drift_policy_witness :
    (["email_length"].all fun c => kindConsistentB (refW c) (curW c)) = true ∧
    colEntry ksW chisquareModelled refW curW dataDriftThreshold "email_length" =
      some ⟨"Kolmogorov-Smirnov", 1, mkRat 1 100, true⟩ := by
  refine ⟨by decide, ?_⟩
  have h := ((data_drift_policy_amended ksW chisquareModelled refW curW
    ["email_length"] dataDriftThreshold (by decide)).2.2.2.1 "email_length"
    [some 1, some 1] [some 5] (by decide) (by decide)).2 (by decide) (by decide)
  rw [h]
  decide

/-- Counterexample to C4 as stated: the categorical column `color` is
present in both datasets with non-missing values on both sides, yet
`detect_data_drift` produces no entry for it — the chi-square call rejects
aligned tables with different totals (1 reference value versus 2 current
values) and the bare `except` silently skips the column. -/
theorem data_drift_counterexample :
    refCt "color" = some (.cat [some "a"])
    ∧ curCt "color" = some (.cat [some "a", some "a"])
    ∧ dropnaS [some "a"] ≠ []
    ∧ dropnaS [some "a", some "a"] ≠ []
    ∧ detectDataDrift ksW chisquareModelled refCt curCt ["color"]
        dataDriftThreshold = [] := by
  refine ⟨by decide, by decide, by decide, by decide, by decide⟩

end EmailMLOps
